import Mathlib

/-!
# Verification of the ONVIF proxy SOAP transformation core

Shallow embedding of the Python sources of the frigate-to-tapo-c500
ONVIF proxy (`forward_proxy.py`, `helpers.py`, `request_modifiers.py`,
`response_modifiers.py`) together with proofs about the embedded
definitions.

Modelling conventions:
* lxml element trees become the inductive `XTree`; attribute values and
  text stay plain strings, exactly as in lxml.
* In-place mutation of an element found inside a tree is modelled by
  locating the element (a path of child indices) and rebuilding the tree
  with `updateAt`.
* Python floats are idealised as exact rationals (`ℚ`); `float(...)`
  parsing is modelled by the decimal parser `pyFloat?` and the
  `f"{v:g}"` formatting by the exact decimal printer `fmtG`.
* `threading.Timer` objects become entries of an explicit timer list in
  the system state `Sys`; `timer.cancel()` clears the `live` flag and the
  expiry callback is modelled by `fireTimer`.
* Raised Python exceptions become the `Except PyErr` monad.
* Namespaced lxml tags such as `{ns}Tag` are built by `braced`, keeping
  the brace characters out of the string literals.
-/

/-- A Python exception escaping an embedded function. -/
inductive PyErr where
  | typeError (msg : String)
  | valueError (msg : String)
deriving DecidableEq, Repr

/-- An lxml element: tag, attribute list, optional text, child elements. -/
inductive XTree where
  | elem (tag : String) (attrs : List (String × String)) (text : Option String)
      (children : List XTree)
deriving Repr

namespace XTree

def tag : XTree → String
  | .elem t _ _ _ => t

def attrs : XTree → List (String × String)
  | .elem _ a _ _ => a

def text : XTree → Option String
  | .elem _ _ tx _ => tx

def children : XTree → List XTree
  | .elem _ _ _ cs => cs

end XTree

mutual

/-- Decidable structural equality on `XTree`. -/
def XTree.decEq : (a b : XTree) → Decidable (a = b)
  | .elem t a x c, .elem t' a' x' c' =>
      if h1 : t = t' then
        if h2 : a = a' then
          if h3 : x = x' then
            match XTree.decEqList c c' with
            | isTrue h4 => isTrue (by rw [h1, h2, h3, h4])
            | isFalse h4 => isFalse (by intro hc; injection hc with e1 e2 e3 e4; exact h4 e4)
          else isFalse (by intro hc; injection hc with e1 e2 e3 e4; exact h3 e3)
        else isFalse (by intro hc; injection hc with e1 e2 e3 e4; exact h2 e2)
      else isFalse (by intro hc; injection hc with e1 e2 e3 e4; exact h1 e1)

/-- Decidable equality on lists of `XTree`. -/
def XTree.decEqList : (cs ds : List XTree) → Decidable (cs = ds)
  | [], [] => isTrue rfl
  | c :: cs, d :: ds =>
      match XTree.decEq c d with
      | isTrue h1 =>
          match XTree.decEqList cs ds with
          | isTrue h2 => isTrue (by rw [h1, h2])
          | isFalse h2 => isFalse (by intro hc; injection hc with e1 e2; exact h2 e2)
      | isFalse h1 => isFalse (by intro hc; injection hc with e1 e2; exact h1 e1)
  | [], _ :: _ => isFalse (by intro hc; cases hc)
  | _ :: _, [] => isFalse (by intro hc; cases hc)

end

instance : DecidableEq XTree := XTree.decEq

instance {ε α : Type} [DecidableEq ε] [DecidableEq α] : DecidableEq (Except ε α) := fun a b =>
  match a, b with
  | .ok x, .ok y =>
      if h : x = y then isTrue (by rw [h]) else isFalse (by intro hc; cases hc; exact h rfl)
  | .error x, .error y =>
      if h : x = y then isTrue (by rw [h]) else isFalse (by intro hc; cases hc; exact h rfl)
  | .ok _, .error _ => isFalse (by intro hc; cases hc)
  | .error _, .ok _ => isFalse (by intro hc; cases hc)

/-- Attribute lookup, as in `element.get(key)`. -/
def getA : List (String × String) → String → Option String
  | [], _ => none
  | (k, v) :: rest, key => if k = key then some v else getA rest key

/-- Attribute write, as in `element.set(key, value)`: replace an existing
binding, else append. -/
def setA : List (String × String) → String → String → List (String × String)
  | [], key, value => [(key, value)]
  | (k, v) :: rest, key, value =>
      if k = key then (key, value) :: rest else (k, v) :: setA rest key value

/-- Replace the element at index `i` (no-op when out of range), as mutating
one member of an lxml child list does. -/
def modifyAt {α : Type} : List α → Nat → (α → α) → List α
  | [], _, _ => []
  | x :: xs, 0, f => f x :: xs
  | x :: xs, i + 1, f => x :: modifyAt xs i f

/-- `list.insert(i, a)` (Python semantics for `0 ≤ i ≤ len`). -/
def insertAt {α : Type} (xs : List α) (i : Nat) (a : α) : List α :=
  xs.take i ++ a :: xs.drop i

/-- Remove the element at index `i`, as `parent.remove(child)` does once the
child's index is known. -/
def eraseAt {α : Type} (xs : List α) (i : Nat) : List α :=
  xs.take i ++ xs.drop (i + 1)

/-- Fetch the element at a path of child indices. `getAt t [] = t`. -/
def getAt : XTree → List Nat → Option XTree
  | t, [] => some t
  | t, i :: l =>
      match t.children.get? i with
      | some c => getAt c l
      | none => none

/-- Rebuild the tree with `f` applied to the element at the given path
(identity when the path is out of range): the functional image of mutating
a found element in place. -/
def updateAt (f : XTree → XTree) : XTree → List Nat → XTree
  | t, [] => f t
  | .elem tg a tx cs, i :: l =>
      .elem tg a tx (modifyAt cs i (fun c => updateAt f c l))

/-- First child (with its index) satisfying a predicate, as an ElementPath
single-step child match. -/
def childFind (q : XTree → Bool) (t : XTree) : Option (Nat × XTree) :=
  go 0 t.children
where
  go : Nat → List XTree → Option (Nat × XTree)
    | _, [] => none
    | i, c :: cs => if q c then some (i, c) else go (i + 1) cs

mutual

/-- `root.find('.//tag')`: first proper descendant, in document (preorder)
order, satisfying `p`; returns its path and the element. -/
def findE (p : XTree → Bool) : XTree → Option (List Nat × XTree)
  | .elem _ _ _ cs => findEL p 0 cs

/-- Sibling sweep for `findE`, carrying the index of the first list member. -/
def findEL (p : XTree → Bool) : Nat → List XTree → Option (List Nat × XTree)
  | _, [] => none
  | i, c :: cs =>
      if p c then some ([i], c)
      else
        match findE p c with
        | some (l, e) => some (i :: l, e)
        | none => findEL p (i + 1) cs

end

mutual

/-- `root.find('.//A/B')`: walk the `p`-tagged descendants in document
order and return the first `q`-tagged child of the first such descendant
that has one, with its path. -/
def findDC (p q : XTree → Bool) : XTree → Option (List Nat × XTree)
  | .elem _ _ _ cs => findDCL p q 0 cs

/-- Sibling sweep for `findDC`. -/
def findDCL (p q : XTree → Bool) : Nat → List XTree → Option (List Nat × XTree)
  | _, [] => none
  | i, c :: cs =>
      match (if p c then childFind q c else none) with
      | some (j, b) => some ([i, j], b)
      | none =>
          match findDC p q c with
          | some (l, e) => some (i :: l, e)
          | none => findDCL p q (i + 1) cs

end

/-- Last index of a `p`-satisfying member, as the source's forward
enumeration loop that keeps overwriting `last_rel_pt_idx`. -/
def lastIdxP (p : XTree → Bool) : List XTree → Option Nat
  | [] => none
  | c :: cs =>
      match lastIdxP p cs with
      | some k => some (k + 1)
      | none => if p c then some 0 else none

/-- Namespaced lxml tag `\x7bns\x7dlocal`. -/
def braced (ns local_ : String) : String := "\x7b" ++ ns ++ "\x7d" ++ local_

def nsSchema : String := "http://www.onvif.org/ver10/schema"
def nsPtz : String := "http://www.onvif.org/ver20/ptz/wsdl"
def nsSoapEnv : String := "http://www.w3.org/2003/05/soap-envelope"

def panTiltTag : String := braced nsSchema "PanTilt"
def spacesTag : String := braced nsSchema "Spaces"
def relPTTag : String := braced nsSchema "RelativePanTiltTranslationSpace"
def uriTag : String := braced nsSchema "URI"
def xRangeTag : String := braced nsSchema "XRange"
def yRangeTag : String := braced nsSchema "YRange"
def minTag : String := braced nsSchema "Min"
def maxTag : String := braced nsSchema "Max"
def ptzStatusTag : String := braced nsPtz "PTZStatus"
def moveStatusTag : String := braced nsSchema "MoveStatus"
def positionTag : String := braced nsSchema "Position"
def capabilitiesTag : String := braced nsPtz "Capabilities"
def faultTag : String := braced nsSoapEnv "Fault"
def bodyTag : String := braced nsSoapEnv "Body"
def relMoveRespTag : String := braced nsPtz "RelativeMoveResponse"

def isTag (s : String) (t : XTree) : Bool := t.tag = s

/-! ## Numeric attribute values

Python floats are idealised as exact decimal fractions (every IEEE double
is a dyadic rational, hence an exact decimal fraction; signed zero is not
modelled).  `Dec` is `mant / 10 ^ exp`, unnormalised.  `pyFloat?` models
`float(str)` on plain decimal literals (`[+-]?digits[.digits]?`) and
returns `none` where `float` raises `ValueError`; `fmtG` models the
`f"{v:g}"` formatting at this exact level, printing the shortest decimal
form. -/

/-- An exact decimal fraction `mant / 10 ^ exp`. -/
structure Dec where
  mant : Int
  exp : Nat
deriving DecidableEq, Repr

def Dec.one : Dec := ⟨1, 0⟩

def Dec.negOne : Dec := ⟨-1, 0⟩

def Dec.mul (a b : Dec) : Dec := ⟨a.mant * b.mant, a.exp + b.exp⟩

/-- Numeric `a ≤ b` on decimal fractions. -/
def Dec.ble (a b : Dec) : Bool :=
  decide (a.mant * (10 : Int) ^ b.exp ≤ b.mant * (10 : Int) ^ a.exp)

/-- Numeric value of a `Dec` as a rational. -/
def Dec.toQ (a : Dec) : ℚ := (a.mant : ℚ) / (10 : ℚ) ^ a.exp

def natOfDigits (cs : List Char) : Nat :=
  cs.foldl (fun n c => n * 10 + (c.toNat - 48)) 0

/-- Split a character list at the first dot. -/
def splitDot : List Char → List Char × Option (List Char)
  | [] => ([], none)
  | c :: r =>
      if c = '.' then ([], some r)
      else
        let (a, b) := splitDot r
        (c :: a, b)

def pyFloatCore (cs : List Char) : Option Dec :=
  match splitDot cs with
  | (ip, none) =>
      if ip ≠ [] ∧ ip.all Char.isDigit then some ⟨natOfDigits ip, 0⟩ else none
  | (ip, some fp) =>
      if (ip ≠ [] ∨ fp ≠ []) ∧ ip.all Char.isDigit ∧ fp.all Char.isDigit then
        some ⟨natOfDigits ip * 10 ^ fp.length + natOfDigits fp, fp.length⟩
      else none

/-- `float(s)` for plain decimal literals; `none` models a `ValueError`. -/
def pyFloat? (s : String) : Option Dec :=
  match s.data with
  | '-' :: r => (pyFloatCore r).map (fun q => ⟨-q.mant, q.exp⟩)
  | '+' :: r => pyFloatCore r
  | cs => pyFloatCore cs

/-- Drop trailing decimal zeros: `(m, e)` with `m / 10 ^ e` unchanged and
either `e = 0` or `m` not divisible by 10. -/
def stripZeros : Nat → Nat → Nat × Nat
  | m, 0 => (m, 0)
  | m, e + 1 => if m % 10 = 0 then stripZeros (m / 10) e else (m, e + 1)

def fmtGPos (m0 : Nat) (e0 : Nat) : String :=
  let (m, e) := stripZeros m0 e0
  if e = 0 then toString m
  else
    let fr := toString (m % 10 ^ e)
    toString (m / 10 ^ e) ++ "." ++ String.mk (List.replicate (e - fr.length) '0') ++ fr

/-- `f"{v:g}"` at the exact-decimal level. -/
def fmtG (q : Dec) : String :=
  if q.mant < 0 then "-" ++ fmtGPos q.mant.natAbs q.exp else fmtGPos q.mant.natAbs q.exp

/-- `max(-1.0, min(1.0, v))` — hard saturation to [-1, 1], with Python's
`min`/`max` tie behaviour. -/
def clampQ (v : Dec) : Dec :=
  let m := if Dec.ble Dec.one v then Dec.one else v
  if Dec.ble m Dec.negOne then Dec.negOne else m

/-! ## Motion state store (`helpers.py`)

The per-camera mutable config dictionary becomes `CameraConfig`; the
`threading.Timer` objects it stores become entries of the `timers` list of
`Sys`.  `_move_timer` holds the index of the tracked timer; `cancel()`
clears the `live` flag; the expiry callback is `fireTimer` (it only runs
for a timer that is still live, i.e. not cancelled). -/

structure TimerEntry where
  delay : ℚ
  live : Bool
deriving DecidableEq, Repr

structure CameraConfig where
  name : String
  camera_host : String
  camera_port : Nat
  move_timeout : Option ℚ
  x_multiplier : Option Dec
  y_multiplier : Option Dec
  status : Option String
  move_timer : Option Nat
  status_x : Option String
  status_y : Option String
deriving DecidableEq, Repr

structure Sys where
  cfg : CameraConfig
  timers : List TimerEntry
deriving DecidableEq, Repr

/-- Cancel the timer tracked by `_move_timer`, if any (the
`isinstance(existing, threading.Timer)` branch of the source). -/
def cancelTracked (mt : Option Nat) (tms : List TimerEntry) : List TimerEntry :=
  match mt with
  | some i => modifyAt tms i (fun t => { t with live := false })
  | none => tms

/-- `ONVIFHelpers.set_moving`: read the timeout (default 10), cancel and
drop any tracked timer, set status MOVING, arm and track a fresh timer. -/
def set_moving (s : Sys) : Sys :=
  let timeout := s.cfg.move_timeout.getD 10
  let tms := cancelTracked s.cfg.move_timer s.timers
  { cfg := { s.cfg with status := some "MOVING", move_timer := some tms.length },
    timers := tms ++ [⟨timeout, true⟩] }

/-- `ONVIFHelpers.set_idle`: cancel and drop any tracked timer, set status
IDLE. -/
def set_idle (s : Sys) : Sys :=
  { cfg := { s.cfg with status := some "IDLE", move_timer := none },
    timers := cancelTracked s.cfg.move_timer s.timers }

/-- Expiry of timer `i`: a cancelled timer never fires; a live one marks
itself spent and runs the `_set_idle` callback, which calls `set_idle`. -/
def fireTimer (s : Sys) (i : Nat) : Sys :=
  if (s.timers.getD i ⟨0, false⟩).live then
    set_idle { s with timers := modifyAt s.timers i (fun t => { t with live := false }) }
  else s

def liveTimers (s : Sys) : List TimerEntry := s.timers.filter (·.live)

/-- Invariant: every live timer is the one tracked by `_move_timer`. -/
def timerInvB (s : Sys) : Bool :=
  match s.cfg.move_timer with
  | none => s.timers.all (fun t => !t.live)
  | some i =>
      (s.timers.take i).all (fun t => !t.live) &&
      (s.timers.drop (i + 1)).all (fun t => !t.live)

/-! ## Request transformer (`request_modifiers.py`)

`modify_onvif_request` takes the operation name, the parsed request tree
and the system state, and returns the (possibly rewritten) tree together
with the new state, or a raised exception.  All branches serialize the
tree uniformly with `etree.tostring(root)`, so serialization is modelled
by returning the tree itself. -/

/-- The `RelativeMove` branch of `modify_onvif_request`. -/
def relMoveBranch (s : Sys) (root : XTree) : Except PyErr (XTree × Sys) :=
  let xm := s.cfg.x_multiplier.getD Dec.one
  let ym := s.cfg.y_multiplier.getD Dec.one
  match findE (isTag panTiltTag) root with
  | none => .ok (root, s)
  | some (lp, pt) =>
      match getA pt.attrs "x", getA pt.attrs "y" with
      | some sx, some sy =>
          match pyFloat? sx with
          | none => .error (.valueError ("could not convert string to float: " ++ sx))
          | some qx =>
              match pyFloat? sy with
              | none => .error (.valueError ("could not convert string to float: " ++ sy))
              | some qy =>
                  let nx := clampQ (qx.mul xm)
                  let ny := clampQ (qy.mul ym)
                  let root' := updateAt
                    (fun e => .elem e.tag (setA (setA e.attrs "x" (fmtG nx)) "y" (fmtG ny))
                      e.text e.children) root lp
                  .ok (root', set_moving s)
      | _, _ => .ok (root, s)

/-- `ONVIFRequestModifier.modify_onvif_request`. -/
def modify_onvif_request (s : Sys) (operation : String) (root : XTree) :
    Except PyErr (XTree × Sys) :=
  if operation = "GetCapabilities" then .ok (root, s)
  else if operation = "GetProfiles" then .ok (root, s)
  else if operation = "GetConfigurationOptions" then .ok (root, s)
  else if operation = "GetStatus" then .ok (root, s)
  else if operation = "GetPresets" then .ok (root, s)
  else if operation = "GetServiceCapabilities" then .ok (root, s)
  else if operation = "RelativeMove" then relMoveBranch s root
  else if operation = "GoToPreset" then .ok (root, set_moving s)
  else if operation = "ContinuousMove" then .ok (root, set_moving s)
  else if operation = "AbsoluteMove" then .ok (root, set_moving s)
  else if operation = "Stop" then .ok (root, set_idle s)
  else .ok (root, s)

/-! ## Forwarding collaborator (`forward_proxy.py`)

The network call itself is external; its outcome is a `NetOutcome`
parameter.  The three fault generators are written in the source as
instance methods (`def timeout_fault(self)`), yet the exception handlers
invoke them through the class (`ONVIFForwardProxy.timeout_fault()`),
passing no instance.  Python call semantics are kept: each embedded
method takes its positional argument list and raises `TypeError` when the
arity does not match. -/

inductive NetOutcome where
  | success (text : String) (code : Nat)
  | timeout
  | connectionError (msg : String)
  | otherError (msg : String)
deriving DecidableEq, Repr

def timeoutFaultXml : String :=
  "<?xml version=\"1.0\" encoding=\"UTF-8\"?>\n<SOAP-ENV:Envelope xmlns:SOAP-ENV=\"http://www.w3.org/2003/05/soap-envelope\">\n    <SOAP-ENV:Body>\n        <SOAP-ENV:Fault>\n            <SOAP-ENV:Code>\n                <SOAP-ENV:Value>SOAP-ENV:Receiver</SOAP-ENV:Value>\n            </SOAP-ENV:Code>\n            <SOAP-ENV:Reason>\n                <SOAP-ENV:Text xml:lang=\"en\">Request timeout</SOAP-ENV:Text>\n            </SOAP-ENV:Reason>\n        </SOAP-ENV:Fault>\n    </SOAP-ENV:Body>\n</SOAP-ENV:Envelope>"

def connectionFaultXml : String :=
  "<?xml version=\"1.0\" encoding=\"UTF-8\"?>\n<SOAP-ENV:Envelope xmlns:SOAP-ENV=\"http://www.w3.org/2003/05/soap-envelope\">\n    <SOAP-ENV:Body>\n        <SOAP-ENV:Fault>\n            <SOAP-ENV:Code>\n                <SOAP-ENV:Value>SOAP-ENV:Receiver</SOAP-ENV:Value>\n            </SOAP-ENV:Code>\n            <SOAP-ENV:Reason>\n                <SOAP-ENV:Text xml:lang=\"en\">Connection error to camera</SOAP-ENV:Text>\n            </SOAP-ENV:Reason>\n        </SOAP-ENV:Fault>\n    </SOAP-ENV:Body>\n</SOAP-ENV:Envelope>"

def genericFaultXml (message : String) : String :=
  "<?xml version=\"1.0\" encoding=\"UTF-8\"?>\n<SOAP-ENV:Envelope xmlns:SOAP-ENV=\"http://www.w3.org/2003/05/soap-envelope\">\n    <SOAP-ENV:Body>\n        <SOAP-ENV:Fault>\n            <SOAP-ENV:Code>\n                <SOAP-ENV:Value>SOAP-ENV:Receiver</SOAP-ENV:Value>\n            </SOAP-ENV:Code>\n            <SOAP-ENV:Reason>\n                <SOAP-ENV:Text xml:lang=\"en\">" ++ message ++ "</SOAP-ENV:Text>\n            </SOAP-ENV:Reason>\n        </SOAP-ENV:Fault>\n    </SOAP-ENV:Body>\n</SOAP-ENV:Envelope>"

/-- `ONVIFForwardProxy.timeout_fault`, as a Python callable: declared with
the single parameter `self`. -/
def timeout_fault (args : List String) : Except PyErr String :=
  match args with
  | [_] => .ok timeoutFaultXml
  | _ => .error (.typeError
      "ONVIFForwardProxy.timeout_fault() missing 1 required positional argument: 'self'")

/-- `ONVIFForwardProxy.connection_fault`, declared with the single
parameter `self`. -/
def connection_fault (args : List String) : Except PyErr String :=
  match args with
  | [_] => .ok connectionFaultXml
  | _ => .error (.typeError
      "ONVIFForwardProxy.connection_fault() missing 1 required positional argument: 'self'")

/-- `ONVIFForwardProxy.generic_fault`, declared with parameters
`self, message`. -/
def generic_fault (args : List String) : Except PyErr String :=
  match args with
  | [_, message] => .ok (genericFaultXml message)
  | _ => .error (.typeError
      "ONVIFForwardProxy.generic_fault() missing 1 required positional argument: 'message'")

/-- `ONVIFForwardProxy.proxy_tcp_request`: on success, the upstream text
and status; on failure, the matching exception handler runs, whose call to
the fault generator goes through the class with no instance — an exception
raised there escapes the handler. -/
def proxy_tcp_request (cfg : CameraConfig) (service _soap_body : String)
    (net : NetOutcome) : Except PyErr (String × Nat) :=
  let _service_url :=
    "http://" ++ cfg.camera_host ++ ":" ++ toString cfg.camera_port ++ "/onvif/" ++ service
  match net with
  | .success text code => .ok (text, code)
  | .timeout => (timeout_fault []).map (fun b => (b, 500))
  | .connectionError _ => (connection_fault []).map (fun b => (b, 500))
  | .otherError m => (generic_fault [m]).map (fun b => (b, 500))

/-! ## Response transformer (`response_modifiers.py`)

`etree.tostring` is called in two ways: plain (`etree.tostring(root)`,
bytes, no XML declaration) and, on the `GetConfigurationOptions` insert
path, with `encoding='utf-8', xml_declaration=True` followed by
`.decode('utf-8')` (a `str` with declaration).  `Serialized` records the
tree plus these two representation flags. -/

structure Serialized where
  doc : XTree
  xmlDecl : Bool
  asStr : Bool
deriving DecidableEq, Repr

/-- `etree.tostring(root)`. -/
def tostr (t : XTree) : Serialized := ⟨t, false, false⟩

/-- `etree.tostring(root, encoding='utf-8', xml_declaration=True).decode('utf-8')`. -/
def tostrDecl (t : XTree) : Serialized := ⟨t, true, true⟩

/-- Substring test over character lists (the Python `in` operator). -/
def containsSub (needle : List Char) : List Char → Bool
  | [] => needle.isEmpty
  | c :: t => needle.isPrefixOf (c :: t) || containsSub needle t

/-- `needle in hay` on strings. -/
def strContains (hay needle : String) : Bool := containsSub needle.data hay.data

def fovURI : String := "http://www.onvif.org/ver10/tptz/PanTiltSpaces/TranslationSpaceFov"

/-- The synthesized field-of-view translation space: URI element plus
XRange and YRange both spanning [-1, 1]. -/
def fovSpace : XTree :=
  .elem relPTTag [] none
    [ .elem uriTag [] (some fovURI) [],
      .elem xRangeTag [] none
        [ .elem minTag [] (some "-1") [], .elem maxTag [] (some "1") [] ],
      .elem yRangeTag [] none
        [ .elem minTag [] (some "-1") [], .elem maxTag [] (some "1") [] ] ]

/-- The source's scan over
`spaces.findall('tt:RelativePanTiltTranslationSpace')`: for each entry
look up its `URI` child; `'TranslationSpaceFov' in uri.text` raises
`TypeError` when the URI element has no text. -/
def fovScan : List XTree → Except PyErr Bool
  | [] => .ok false
  | space :: rest =>
      match childFind (isTag uriTag) space with
      | none => fovScan rest
      | some (_, uri) =>
          match uri.text with
          | none => .error (.typeError "argument of type 'NoneType' is not iterable")
          | some txt =>
              if strContains txt "TranslationSpaceFov" then .ok true else fovScan rest

/-- The `GetConfigurationOptions` branch of `modify_onvif_response`. -/
def getConfOptsBranch (s : Sys) (root : XTree) : Except PyErr (Serialized × Sys) :=
  match findE (isTag spacesTag) root with
  | none => .ok (tostr root, s)
  | some (ls, spaces) =>
      match spaces.children.find? (isTag relPTTag) with
      | none => .ok (tostr root, s)
      | some _ =>
          match fovScan (spaces.children.filter (isTag relPTTag)) with
          | .error e => .error e
          | .ok true => .ok (tostr root, s)
          | .ok false =>
              let newChildren :=
                match lastIdxP (isTag relPTTag) spaces.children with
                | some k => insertAt spaces.children (k + 1) fovSpace
                | none => spaces.children ++ [fovSpace]
              .ok (tostrDecl
                (updateAt (fun e => .elem e.tag e.attrs e.text newChildren) root ls), s)

/-- The `GetStatus` branch of `modify_onvif_response`.  The source mutates
`MoveStatus.text` on the shared tree before looking up the position, so
the position lookup runs over the already-mutated `PTZStatus` subtree;
`logger.debug(... + MoveStatus.text)` raises `TypeError` when the element
has no text. -/
def getStatusBranch (s : Sys) (root : XTree) : Except PyErr (Serialized × Sys) :=
  let last_status := s.cfg.status.getD "IDLE"
  match findE (isTag ptzStatusTag) root with
  | none => .ok (tostr root, s)
  | some (lptz, ptz) =>
      match findDC (isTag moveStatusTag) (isTag panTiltTag) ptz with
      | none => .ok (tostr root, s)
      | some (lms, ms) =>
          match ms.text with
          | none => .error (.typeError
              "can only concatenate str (not \"NoneType\") to str")
          | some _ =>
              let ptz1 :=
                updateAt (fun e => .elem e.tag e.attrs (some last_status) e.children) ptz lms
              match findDC (isTag positionTag) (isTag panTiltTag) ptz1 with
              | none => .ok (tostr (updateAt (fun _ => ptz1) root lptz), s)
              | some (_, pos) =>
                  let current_x := getA pos.attrs "x"
                  let current_y := getA pos.attrs "y"
                  let eqPos :=
                    match s.cfg.status_x, s.cfg.status_y with
                    | some lx, some ly => current_x == some lx && current_y == some ly
                    | _, _ => false
                  let (ptz2, s2) :=
                    if eqPos then
                      (updateAt (fun e => .elem e.tag e.attrs (some "IDLE") e.children)
                        ptz1 lms, set_idle s)
                    else (ptz1, s)
                  .ok (tostr (updateAt (fun _ => ptz2) root lptz),
                    ⟨{ s2.cfg with status_x := current_x, status_y := current_y },
                      s2.timers⟩)

def relMoveRespElem : XTree := .elem relMoveRespTag [] none []

/-- The `RelativeMove` branch of `modify_onvif_response`: suppress a SOAP
fault.  `Body.remove(Fault)` succeeds only when the found fault element is
a direct child of the found body; otherwise lxml raises `ValueError`. -/
def relMoveRespBranch (s : Sys) (root : XTree) : Except PyErr (Serialized × Sys) :=
  match findE (isTag faultTag) root with
  | none => .ok (tostr root, s)
  | some (lf, _) =>
      match findE (isTag bodyTag) root with
      | none => .ok (tostr root, s)
      | some (lb, _) =>
          if lb.isPrefixOf lf then
            match lf.drop lb.length with
            | [i] => .ok (tostr (updateAt
                (fun b => .elem b.tag b.attrs b.text
                  (eraseAt b.children i ++ [relMoveRespElem])) root lb), s)
            | _ => .error (.valueError "Element is not a child of this node.")
          else .error (.valueError "Element is not a child of this node.")

/-- The `GetServiceCapabilities` branch of `modify_onvif_response`. -/
def getSvcCapsBranch (s : Sys) (root : XTree) : Except PyErr (Serialized × Sys) :=
  match findE (isTag capabilitiesTag) root with
  | none => .ok (tostr root, s)
  | some (lc, _) => .ok (tostr (updateAt
      (fun e => .elem e.tag (setA (setA e.attrs "MoveStatus" "true") "StatusPosition" "true")
        e.text e.children) root lc), s)

/-- `ONVIFResponseModifier.modify_onvif_response`. -/
def modify_onvif_response (s : Sys) (operation : String) (root : XTree) :
    Except PyErr (Serialized × Sys) :=
  if operation = "GetCapabilities" then .ok (tostr root, s)
  else if operation = "GetProfiles" then .ok (tostr root, s)
  else if operation = "GetConfiguration" then .ok (tostr root, s)
  else if operation = "GetConfigurationOptions" then getConfOptsBranch s root
  else if operation = "GetStatus" then getStatusBranch s root
  else if operation = "GetPresets" then .ok (tostr root, s)
  else if operation = "GetServiceCapabilities" then getSvcCapsBranch s root
  else if operation = "RelativeMove" then relMoveRespBranch s root
  else if operation = "GoToPreset" then .ok (tostr root, s)
  else if operation = "ContinuousMove" then .ok (tostr root, s)
  else if operation = "AbsoluteMove" then .ok (tostr root, s)
  else if operation = "Stop" then .ok (tostr root, s)
  else .ok (tostr root, s)

/-- Sample camera record used for concrete runs (all optional config keys
absent, as for a freshly loaded minimal YAML entry). -/
def cfg0 : CameraConfig :=
  ⟨"tapo", "192.168.0.10", 2020, none, none, none, none, none, none, none⟩

def sys0 : Sys := ⟨cfg0, []⟩

/-- Camera record with pan multiplier 1/2 and tilt multiplier -1. -/
def cfgC2 : CameraConfig :=
  ⟨"tapo", "192.168.0.10", 2020, none, some ⟨5, 1⟩, some ⟨-1, 0⟩, none, none, none, none⟩

def sysC2 : Sys := ⟨cfgC2, []⟩

/-- PanTilt delta element of a RelativeMove request: x=0.8, y=0.5. -/
def ptC2 : XTree := .elem panTiltTag [("x", "0.8"), ("y", "0.5")] none []

/-- A RelativeMove request document around `ptC2`. -/
def rootC2 : XTree :=
  .elem "Envelope" [] none
    [ .elem "Body" [] none
        [ .elem "RelativeMove" [] none
            [ .elem "Translation" [] none [ ptC2 ] ] ] ]

/-- A RelativeMove request whose PanTilt x attribute is not a number. -/
def rootC3 : XTree :=
  .elem "Envelope" [] none
    [ .elem panTiltTag [("x", "abc"), ("y", "0")] none [] ]

/-- A GetConfigurationOptions response whose Spaces element has no
relative pan-tilt translation space at all. -/
def rootC7 : XTree :=
  .elem "Envelope" [] none
    [ .elem spacesTag [] none
        [ .elem (braced nsSchema "ContinuousPanTiltVelocitySpace") [] none [] ] ]

/-- The camera's native generic relative pan-tilt translation space. -/
def genSpaceC7 : XTree :=
  .elem relPTTag [] none
    [ .elem uriTag []
        (some "http://www.onvif.org/ver10/tptz/PanTiltSpaces/TranslationGenericSpace") [] ]

/-- A GetConfigurationOptions response advertising only `genSpaceC7`. -/
def rootC7b : XTree :=
  .elem "Envelope" [] none [ .elem spacesTag [] none [ genSpaceC7 ] ]

/-- `rootC7b` after the transform has inserted the synthesized FOV space. -/
def docC8 : XTree :=
  .elem "Envelope" [] none [ .elem spacesTag [] none [ genSpaceC7, fovSpace ] ]

/-- Position PanTilt element of a GetStatus response: x=0.30, y=0.40. -/
def posPTC6 : XTree := .elem panTiltTag [("x", "0.30"), ("y", "0.40")] none []

/-- MoveStatus PanTilt element of a GetStatus response. -/
def msPTC6 : XTree := .elem panTiltTag [] (some "MOVING") []

/-- PTZStatus element holding `posPTC6` and `msPTC6`. -/
def ptzC6 : XTree :=
  .elem ptzStatusTag [] none
    [ .elem positionTag [] none [ posPTC6 ],
      .elem moveStatusTag [] none [ msPTC6 ] ]

/-- A GetStatus response document around `ptzC6`. -/
def rootC6 : XTree :=
  .elem "Envelope" [] none
    [ .elem "Body" [] none [ .elem "GetStatusResponse" [] none [ ptzC6 ] ] ]

/-- Device state that already observed position (0.30, 0.40) and is
MOVING with one armed timer. -/
def sC6 : Sys :=
  ⟨⟨"tapo", "192.168.0.10", 2020, none, none, none, some "MOVING", some 0,
    some "0.30", some "0.40"⟩, [⟨10, true⟩]⟩

/-- A SOAP fault element, as a camera returns for a rejected RelativeMove. -/
def faultC9 : XTree :=
  .elem faultTag [] none [ .elem (braced nsSoapEnv "Code") [] none [] ]

/-- A RelativeMove response envelope whose body holds only `faultC9`. -/
def rootC9 : XTree := .elem "Envelope" [] none [ .elem bodyTag [] none [ faultC9 ] ]

/-! ## Basic lemmas about the list and tree operations -/

theorem modifyAt_length {α : Type} (l : List α) (i : Nat) (f : α → α) :
    (modifyAt l i f).length = l.length := by
  induction l generalizing i with
  | nil => rfl
  | cons x xs ih =>
      cases i with
      | zero => rfl
      | succ j => simpa [modifyAt] using ih j

theorem modifyAt_get?_self {α : Type} (l : List α) (i : Nat) (f : α → α) :
    (modifyAt l i f).get? i = (l.get? i).map f := by
  induction l generalizing i with
  | nil => cases i with | zero => rfl | succ j => rfl
  | cons x xs ih =>
      cases i with
      | zero => rfl
      | succ j => simpa [modifyAt] using ih j

theorem getA_setA_same (a : List (String × String)) (k v : String) :
    getA (setA a k v) k = some v := by
  induction a with
  | nil => simp [setA, getA]
  | cons p rest ih =>
      by_cases h : p.1 = k
      · simp [setA, getA, h]
      · simp [setA, getA, h, ih]

theorem getA_setA_other (a : List (String × String)) (k v key : String)
    (hne : k ≠ key) : getA (setA a k v) key = getA a key := by
  induction a with
  | nil => simp [setA, getA, hne]
  | cons p rest ih =>
      by_cases h : p.1 = k
      · simp [setA, getA, h, hne]
      · simp [setA, getA, h, ih]

theorem getAt_updateAt (f : XTree → XTree) (l : List Nat) (t : XTree) :
    getAt (updateAt f t l) l = (getAt t l).map f := by
  induction l generalizing t with
  | nil => simp [getAt, updateAt]
  | cons i l' ih =>
      cases t with
      | elem tg a tx cs =>
          simp only [updateAt, getAt, XTree.children, modifyAt_get?_self]
          cases h : cs.get? i with
          | none => rfl
          | some c => simpa using ih c

theorem getAt_append (t : XTree) (l₁ l₂ : List Nat) :
    getAt t (l₁ ++ l₂) = (getAt t l₁).bind (fun u => getAt u l₂) := by
  induction l₁ generalizing t with
  | nil => rfl
  | cons i l' ih =>
      cases t with
      | elem tg a tx cs =>
          simp only [List.cons_append, getAt, XTree.children]
          cases h : cs.get? i with
          | none => rfl
          | some c => simpa using ih c

theorem updateAt_tag (f : XTree → XTree) (t : XTree) (i : Nat) (l : List Nat) :
    (updateAt f t (i :: l)).tag = t.tag := by
  cases t with | elem => rfl

/-- Helper for reading a child-relative path. -/
def getAtL (cs : List XTree) (j : Nat) (l : List Nat) : Option XTree :=
  match cs.get? j with
  | some c => getAt c l
  | none => none

theorem getAt_cons (tg : String) (a : List (String × String)) (tx : Option String)
    (cs : List XTree) (j : Nat) (l : List Nat) :
    getAt (.elem tg a tx cs) (j :: l) = getAtL cs j l := rfl

theorem childFind_go_some (q : XTree → Bool) (cs : List XTree) (i j : Nat) (b : XTree)
    (h : childFind.go q i cs = some (j, b)) :
    ∃ j', j = i + j' ∧ cs.get? j' = some b ∧ q b = true := by
  induction cs generalizing i with
  | nil => simp [childFind.go] at h
  | cons c rest ih =>
      by_cases hq : q c
      · simp only [childFind.go, hq, if_true, Option.some.injEq, Prod.mk.injEq] at h
        obtain ⟨hij, hcb⟩ := h
        subst hij; subst hcb
        exact ⟨0, by omega, rfl, hq⟩
      · simp only [childFind.go, hq, if_false] at h
        obtain ⟨j', rfl, hget, hqb⟩ := ih (i + 1) h
        refine ⟨j' + 1, by omega, ?_, hqb⟩
        simpa using hget

theorem childFind_some (q : XTree → Bool) (t : XTree) (j : Nat) (b : XTree)
    (h : childFind q t = some (j, b)) :
    t.children.get? j = some b ∧ q b = true := by
  obtain ⟨j', hj, hget, hqb⟩ := childFind_go_some q t.children 0 j b h
  subst hj
  exact ⟨by simpa using hget, hqb⟩

mutual

theorem findE_some (p : XTree → Bool) :
    ∀ (t : XTree) (l : List Nat) (x : XTree),
      findE p t = some (l, x) → getAt t l = some x ∧ p x = true
  | .elem tg a tx cs, l, x, h => by
      simp only [findE] at h
      obtain ⟨j, l₂, rfl, hget, hp⟩ := findEL_some p cs 0 l x h
      refine ⟨?_, hp⟩
      rw [Nat.zero_add, getAt_cons]
      exact hget

theorem findEL_some (p : XTree → Bool) :
    ∀ (cs : List XTree) (i : Nat) (l : List Nat) (x : XTree),
      findEL p i cs = some (l, x) →
      ∃ j l₂, l = (i + j) :: l₂ ∧ getAtL cs j l₂ = some x ∧ p x = true
  | [], i, l, x, h => by simp [findEL] at h
  | c :: cs, i, l, x, h => by
      by_cases hq : p c
      · simp only [findEL, hq, if_true, Option.some.injEq, Prod.mk.injEq] at h
        obtain ⟨hl, hx⟩ := h
        subst hx
        exact ⟨0, [], by simpa using hl.symm, rfl, hq⟩
      · simp only [findEL, hq, Bool.false_eq_true, if_false] at h
        cases hfc : findE p c with
        | some r =>
            obtain ⟨l', e⟩ := r
            rw [hfc] at h
            simp only [Option.some.injEq, Prod.mk.injEq] at h
            obtain ⟨hl, hx⟩ := h
            subst hx
            obtain ⟨hget', hp⟩ := findE_some p c l' e hfc
            exact ⟨0, l', by simpa using hl.symm, hget', hp⟩
        | none =>
            rw [hfc] at h
            obtain ⟨j, l₂, hl, hget, hp⟩ := findEL_some p cs (i + 1) l x h
            refine ⟨j + 1, l₂, ?_, hget, hp⟩
            rw [hl]
            congr 1
            omega

end

mutual

theorem findDC_some (p q : XTree → Bool) :
    ∀ (t : XTree) (l : List Nat) (x : XTree),
      findDC p q t = some (l, x) → getAt t l = some x ∧ q x = true
  | .elem tg a tx cs, l, x, h => by
      simp only [findDC] at h
      obtain ⟨j, l₂, rfl, hget, hp⟩ := findDCL_some p q cs 0 l x h
      refine ⟨?_, hp⟩
      rw [Nat.zero_add, getAt_cons]
      exact hget

theorem findDCL_some (p q : XTree → Bool) :
    ∀ (cs : List XTree) (i : Nat) (l : List Nat) (x : XTree),
      findDCL p q i cs = some (l, x) →
      ∃ j l₂, l = (i + j) :: l₂ ∧ getAtL cs j l₂ = some x ∧ q x = true
  | [], i, l, x, h => by simp [findDCL] at h
  | c :: cs, i, l, x, h => by
      simp only [findDCL] at h
      cases hcf : (if p c then childFind q c else none) with
      | some r =>
          obtain ⟨j₂, b⟩ := r
          rw [hcf] at h
          simp only [Option.some.injEq, Prod.mk.injEq] at h
          obtain ⟨hl, hx⟩ := h
          subst hx
          obtain ⟨hget, hqb⟩ := childFind_some q c j₂ b (by
            by_cases hp : p c
            · simpa [hp] using hcf
            · simp [hp] at hcf)
          refine ⟨0, [j₂], by simpa using hl.symm, ?_, hqb⟩
          show getAt c [j₂] = some b
          rw [show getAt c [j₂] = getAtL c.children j₂ [] from by cases c with | elem => rfl]
          simp only [getAtL, hget, getAt]
      | none =>
          rw [hcf] at h
          cases hfc : findDC p q c with
          | some r =>
              obtain ⟨l', e⟩ := r
              rw [hfc] at h
              simp only [Option.some.injEq, Prod.mk.injEq] at h
              obtain ⟨hl, hx⟩ := h
              subst hx
              obtain ⟨hget', hp⟩ := findDC_some p q c l' e hfc
              exact ⟨0, l', by simpa using hl.symm, hget', hp⟩
          | none =>
              rw [hfc] at h
              obtain ⟨j, l₂, hl, hget, hp⟩ := findDCL_some p q cs (i + 1) l x h
              refine ⟨j + 1, l₂, ?_, hget, hp⟩
              rw [hl]
              congr 1
              omega

end

theorem findE_shape (p : XTree → Bool) (t : XTree) (l : List Nat) (x : XTree)
    (h : findE p t = some (l, x)) : ∃ j l₂, l = j :: l₂ := by
  cases t with
  | elem tg a tx cs =>
      simp only [findE] at h
      obtain ⟨j, l₂, rfl, -, -⟩ := findEL_some p cs 0 l x h
      exact ⟨0 + j, l₂, rfl⟩

mutual

theorem findE_updateAt (p : XTree → Bool) (f : XTree → XTree)
    (hp : ∀ a b : XTree, a.tag = b.tag → p a = p b) :
    ∀ (t : XTree) (l : List Nat) (x : XTree),
      findE p t = some (l, x) → p (f x) = true →
      findE p (updateAt f t l) = some (l, f x)
  | .elem tg a tx cs, l, x, h, hx => by
      obtain ⟨j, l₂, rfl⟩ := findE_shape p (.elem tg a tx cs) l x h
      simp only [findE] at h
      rw [show (j : Nat) = 0 + j from (Nat.zero_add j).symm] at h
      have := findEL_updateAt p f hp cs 0 j l₂ x h hx
      simp only [updateAt, findE]
      rw [Nat.zero_add] at this
      simpa using this

theorem findEL_updateAt (p : XTree → Bool) (f : XTree → XTree)
    (hp : ∀ a b : XTree, a.tag = b.tag → p a = p b) :
    ∀ (cs : List XTree) (i j : Nat) (l₂ : List Nat) (x : XTree),
      findEL p i cs = some ((i + j) :: l₂, x) → p (f x) = true →
      findEL p i (modifyAt cs j (fun c => updateAt f c l₂)) = some ((i + j) :: l₂, f x)
  | [], i, j, l₂, x, h, hx => by simp [findEL] at h
  | c :: cs, i, j, l₂, x, h, hx => by
      by_cases hq : p c
      · simp only [findEL, hq, if_true, Option.some.injEq, Prod.mk.injEq] at h
        obtain ⟨hl, hcx⟩ := h
        subst hcx
        have hj : j = 0 := by
          have := List.head_eq_of_cons_eq hl.symm
          omega
        have hl₂ : l₂ = [] := List.tail_eq_of_cons_eq hl.symm
        subst hj; subst hl₂
        simp only [modifyAt, updateAt, findEL, hx, if_true]
        simp
      · simp only [findEL, hq, Bool.false_eq_true, if_false] at h
        cases hfc : findE p c with
        | some r =>
            obtain ⟨l', e⟩ := r
            rw [hfc] at h
            simp only [Option.some.injEq, Prod.mk.injEq] at h
            obtain ⟨hl, hex⟩ := h
            subst hex
            have hj : j = 0 := by
              have := List.head_eq_of_cons_eq hl
              omega
            have hl₂ : l' = l₂ := List.tail_eq_of_cons_eq hl
            subst hj; subst hl₂
            obtain ⟨j', l₂', hshape⟩ := findE_shape p c l' e hfc
            have htagp : p (updateAt f c l') = p c := by
              rw [hshape]
              exact hp _ _ (updateAt_tag f c j' l₂')
            have hrec := findE_updateAt p f hp c l' e hfc hx
            simp only [modifyAt, findEL, htagp, hq, Bool.false_eq_true, if_false, hrec]
            simp
        | none =>
            rw [hfc] at h
            obtain ⟨j₀, l₂', hl, -, -⟩ := findEL_some p cs (i + 1) ((i + j) :: l₂) x h
            have hj : j = j₀ + 1 := by
              have := List.head_eq_of_cons_eq hl
              omega
            have hl₂ : l₂ = l₂' := List.tail_eq_of_cons_eq hl
            subst hj
            rw [show i + (j₀ + 1) = (i + 1) + j₀ from by omega] at h ⊢
            have hrec := findEL_updateAt p f hp cs (i + 1) j₀ l₂ x h hx
            simp only [modifyAt, findEL, hq, Bool.false_eq_true, if_false, hfc, hrec]

end

/-! ## Timer lemmas -/

theorem filter_live_of_allDead (l : List TimerEntry)
    (h : l.all (fun t => !t.live) = true) : l.filter (fun t => t.live) = [] := by
  induction l with
  | nil => rfl
  | cons c cs ih =>
      simp only [List.all_cons, Bool.and_eq_true, Bool.not_eq_true'] at h
      simp [List.filter, h.1, ih h.2]

theorem modifyAt_kill_allDead (tms : List TimerEntry) (i : Nat)
    (h1 : (tms.take i).all (fun t => !t.live) = true)
    (h2 : (tms.drop (i + 1)).all (fun t => !t.live) = true) :
    (modifyAt tms i (fun t => { t with live := false })).all (fun t => !t.live) = true := by
  induction tms generalizing i with
  | nil => rfl
  | cons c cs ih =>
      cases i with
      | zero =>
          simp only [List.drop_succ_cons, List.drop_zero] at h2
          simp [modifyAt, h2]
      | succ j =>
          simp only [List.take_succ_cons, List.all_cons, Bool.and_eq_true] at h1
          simp only [List.drop_succ_cons] at h2
          simp [modifyAt, h1.1, ih j h1.2 h2]

theorem cancelTracked_allDead (s : Sys) (h : timerInvB s = true) :
    (cancelTracked s.cfg.move_timer s.timers).all (fun t => !t.live) = true := by
  unfold timerInvB at h
  cases hmt : s.cfg.move_timer with
  | none => rw [hmt] at h; simpa [cancelTracked] using h
  | some i =>
      rw [hmt] at h
      simp only [Bool.and_eq_true] at h
      exact modifyAt_kill_allDead s.timers i h.1 h.2

theorem cancelTracked_length (mt : Option Nat) (tms : List TimerEntry) :
    (cancelTracked mt tms).length = tms.length := by
  cases mt with
  | none => rfl
  | some i => exact modifyAt_length tms i _

theorem set_moving_liveTimers (s : Sys) (h : timerInvB s = true) :
    liveTimers (set_moving s) = [⟨s.cfg.move_timeout.getD 10, true⟩] := by
  unfold liveTimers set_moving
  rw [List.filter_append, filter_live_of_allDead _ (cancelTracked_allDead s h)]
  rfl

theorem set_moving_inv (s : Sys) (h : timerInvB s = true) :
    timerInvB (set_moving s) = true := by
  unfold timerInvB set_moving
  simp only []
  rw [List.take_left]
  have hlen : ((cancelTracked s.cfg.move_timer s.timers) ++
      [(⟨s.cfg.move_timeout.getD 10, true⟩ : TimerEntry)]).length =
      (cancelTracked s.cfg.move_timer s.timers).length + 1 := by simp
  rw [show (cancelTracked s.cfg.move_timer s.timers).length + 1 =
      ((cancelTracked s.cfg.move_timer s.timers) ++
        [(⟨s.cfg.move_timeout.getD 10, true⟩ : TimerEntry)]).length from hlen.symm]
  rw [List.drop_length]
  simp [cancelTracked_allDead s h]

theorem set_moving_length (s : Sys) :
    (set_moving s).timers.length = s.timers.length + 1 := by
  unfold set_moving
  simp [cancelTracked_length]

theorem set_moving_move_timer (s : Sys) :
    (set_moving s).cfg.move_timer = some s.timers.length := by
  unfold set_moving
  simp [cancelTracked_length]

theorem set_idle_liveTimers (s : Sys) (h : timerInvB s = true) :
    liveTimers (set_idle s) = [] := by
  unfold liveTimers set_idle
  exact filter_live_of_allDead _ (cancelTracked_allDead s h)

theorem getD_append_length (l : List TimerEntry) (x d : TimerEntry) :
    (l ++ [x]).getD l.length d = x := by
  induction l with
  | nil => rfl
  | cons a as ih =>
      simp only [List.cons_append, List.length_cons, List.getD_cons_succ]
      exact ih

theorem getD_append_lt (A B : List TimerEntry) (i : Nat) (d : TimerEntry)
    (h : i < A.length) : (A ++ B).getD i d = A.getD i d := by
  induction A generalizing i with
  | nil => simp at h
  | cons a as ih =>
      cases i with
      | zero => rfl
      | succ j =>
          simp only [List.cons_append, List.getD_cons_succ]
          exact ih j (by simpa using h)

theorem modifyAt_getD_kill (tms : List TimerEntry) (i : Nat) (d : TimerEntry)
    (h : i < tms.length) :
    ((modifyAt tms i (fun t => { t with live := false })).getD i d).live = false := by
  induction tms generalizing i with
  | nil => simp at h
  | cons c cs ih =>
      cases i with
      | zero => rfl
      | succ j =>
          simp only [modifyAt, List.getD_cons_succ]
          exact ih j (by simpa using h)

theorem cancelTrackedKillGetD (tms : List TimerEntry) (i : Nat) (rest : List TimerEntry)
    (d : TimerEntry) (h : i < tms.length) :
    ((cancelTracked (some i) tms ++ rest).getD i d).live = false := by
  rw [getD_append_lt _ _ _ _ (by
    show i < (cancelTracked (some i) tms).length
    rw [cancelTracked_length]
    exact h)]
  exact modifyAt_getD_kill tms i d h

theorem fireTimer_fresh (s : Sys) :
    (fireTimer (set_moving s) s.timers.length).cfg.status = some "IDLE" := by
  unfold fireTimer
  have hlen : s.timers.length = (cancelTracked s.cfg.move_timer s.timers).length :=
    (cancelTracked_length _ _).symm
  have hget : (set_moving s).timers.getD s.timers.length ⟨0, false⟩ =
      ⟨s.cfg.move_timeout.getD 10, true⟩ := by
    unfold set_moving
    simp only []
    rw [hlen]
    exact getD_append_length _ _ _
  rw [hget]
  simp [set_idle]

/-! ## Lemmas for the GetConfigurationOptions transform -/

theorem find?_eq_head_filter {α : Type} (p : α → Bool) (l : List α) :
    l.find? p = (l.filter p).head? := by
  induction l with
  | nil => rfl
  | cons a as ih =>
      by_cases h : p a
      · rw [List.find?_cons_of_pos _ h, List.filter_cons_of_pos h, List.head?_cons]
      · rw [List.find?_cons_of_neg _ h, List.filter_cons_of_neg h, ih]

theorem lastIdxP_drop_filter (p : XTree → Bool) (cs : List XTree) (k : Nat)
    (h : lastIdxP p cs = some k) : (cs.drop (k + 1)).filter p = [] := by
  induction cs generalizing k with
  | nil => simp [lastIdxP] at h
  | cons c rest ih =>
      simp only [lastIdxP] at h
      cases hr : lastIdxP p rest with
      | some k' =>
          rw [hr] at h
          simp only [Option.some.injEq] at h
          subst h
          simpa using ih k' hr
      | none =>
          rw [hr] at h
          by_cases hp : p c
          · simp only [hp, if_true, Option.some.injEq] at h
            subst h
            simp only [List.drop_succ_cons, List.drop_zero]
            induction rest with
            | nil => rfl
            | cons d ds ihd =>
                simp only [lastIdxP] at hr
                cases hd : lastIdxP p ds with
                | some m => rw [hd] at hr; simp at hr
                | none =>
                    rw [hd] at hr
                    by_cases hpd : p d
                    · simp [hpd] at hr
                    · simp only [List.filter_cons, hpd, Bool.false_eq_true, if_false]
                      exact ihd (by simp [lastIdxP, hd, hpd]) hd
          · simp [hp] at h

theorem filter_insertAt_last (p : XTree → Bool) (cs : List XTree) (k : Nat) (a : XTree)
    (hlast : lastIdxP p cs = some k) (hpa : p a = true) :
    (insertAt cs (k + 1) a).filter p = cs.filter p ++ [a] := by
  unfold insertAt
  rw [List.filter_append]
  simp only [List.filter_cons, hpa, if_true]
  rw [lastIdxP_drop_filter p cs k hlast]
  conv_rhs => rw [← List.take_append_drop (k + 1) cs]
  rw [List.filter_append, lastIdxP_drop_filter p cs k hlast]
  simp

theorem fovScan_cons_none (s : XTree) (rest : List XTree)
    (hcf : childFind (isTag uriTag) s = none) :
    fovScan (s :: rest) = fovScan rest := by
  simp [fovScan, hcf]

theorem fovScan_cons_some (s : XTree) (rest : List XTree) (j : Nat) (uri : XTree)
    (txt : String) (hcf : childFind (isTag uriTag) s = some (j, uri))
    (htx : uri.text = some txt) :
    fovScan (s :: rest) =
      if strContains txt "TranslationSpaceFov" then .ok true else fovScan rest := by
  simp [fovScan, hcf, htx]

theorem fovScan_cons_notext (s : XTree) (rest : List XTree) (j : Nat) (uri : XTree)
    (hcf : childFind (isTag uriTag) s = some (j, uri)) (htx : uri.text = none) :
    fovScan (s :: rest) =
      .error (.typeError "argument of type 'NoneType' is not iterable") := by
  simp [fovScan, hcf, htx]

theorem fovScan_append (A B : List XTree) (h : fovScan A = .ok false) :
    fovScan (A ++ B) = fovScan B := by
  induction A with
  | nil => rfl
  | cons s rest ih =>
      rw [List.cons_append]
      cases hcf : childFind (isTag uriTag) s with
      | none =>
          rw [fovScan_cons_none s rest hcf] at h
          rw [fovScan_cons_none s (rest ++ B) hcf]
          exact ih h
      | some r =>
          obtain ⟨j, uri⟩ := r
          cases htx : uri.text with
          | none => rw [fovScan_cons_notext s rest j uri hcf htx] at h; simp at h
          | some txt =>
              rw [fovScan_cons_some s rest j uri txt hcf htx] at h
              rw [fovScan_cons_some s (rest ++ B) j uri txt hcf htx]
              by_cases hc : strContains txt "TranslationSpaceFov"
              · rw [if_pos hc] at h; simp at h
              · rw [if_neg hc] at h ⊢
                exact ih h

theorem isTag_of_tag_eq (sTag : String) (a b : XTree) (h : a.tag = b.tag) :
    isTag sTag a = isTag sTag b := by simp [isTag, h]

/-! ## Claim theorems

Each claim of the specification gets one theorem below, named after the
behaviour it settles, with concrete-input companions where the theorem
carries hypotheses. -/

/-- Claim C1: on every forwarding failure `proxy_tcp_request` is specified
to return a canned SOAP fault body with status 500; in the code each
`except` handler invokes the fault generator through the class with no
instance (`ONVIFForwardProxy.timeout_fault()`), so the generator call
itself raises `TypeError` and the handler's `return ..., 500` is never
reached: a raw exception escapes to the caller on every failure path,
while the success path returns the upstream text and status unchanged. -/
theorem proxy_forwarding_failure_raises_typeError :
    proxy_tcp_request cfg0 "ptz" "<soap/>" .timeout =
      .error (.typeError
        "ONVIFForwardProxy.timeout_fault() missing 1 required positional argument: 'self'") ∧
    proxy_tcp_request cfg0 "ptz" "<soap/>" (.connectionError "refused") =
      .error (.typeError
        "ONVIFForwardProxy.connection_fault() missing 1 required positional argument: 'self'") ∧
    proxy_tcp_request cfg0 "ptz" "<soap/>" (.otherError "boom") =
      .error (.typeError
        "ONVIFForwardProxy.generic_fault() missing 1 required positional argument: 'message'") ∧
    proxy_tcp_request cfg0 "ptz" "<soap/>" (.success "<resp/>" 200) = .ok ("<resp/>", 200) :=
  ⟨rfl, rfl, rfl, rfl⟩

/-- Claim C4: under the invariant that only the tracked timer is live,
calling `set_moving` twice leaves exactly one live timer — the one armed
by the second call (the freshly appended entry, tracked by
`_move_timer`), the first call's timer having been cancelled — firing it
yields exactly one IDLE transition, and the invariant is preserved. -/
theorem setMoving_twice_single_timer (s : Sys) (h : timerInvB s = true) :
    liveTimers (set_moving (set_moving s)) = [⟨s.cfg.move_timeout.getD 10, true⟩] ∧
    (set_moving (set_moving s)).timers.length = s.timers.length + 2 ∧
    (set_moving (set_moving s)).cfg.move_timer = some (s.timers.length + 1) ∧
    ((set_moving (set_moving s)).timers.getD s.timers.length ⟨0, false⟩).live = false ∧
    (fireTimer (set_moving (set_moving s)) (s.timers.length + 1)).cfg.status = some "IDLE" ∧
    timerInvB (set_moving (set_moving s)) = true := by
  have hinv1 : timerInvB (set_moving s) = true := set_moving_inv s h
  refine ⟨?_, ?_, ?_, ?_, ?_, set_moving_inv _ hinv1⟩
  · rw [set_moving_liveTimers (set_moving s) hinv1]; rfl
  · rw [set_moving_length, set_moving_length]
  · rw [set_moving_move_timer, set_moving_length]
  · have hmt1 : (set_moving s).cfg.move_timer = some s.timers.length :=
      set_moving_move_timer s
    show ((cancelTracked (set_moving s).cfg.move_timer (set_moving s).timers ++
        [(⟨(set_moving s).cfg.move_timeout.getD 10, true⟩ : TimerEntry)]).getD
          s.timers.length (⟨0, false⟩ : TimerEntry)).live = false
    rw [hmt1]
    have hlt : s.timers.length < (set_moving s).timers.length := by
      rw [set_moving_length]; omega
    exact cancelTrackedKillGetD (set_moving s).timers s.timers.length _ ⟨0, false⟩ hlt
  · rw [show s.timers.length + 1 = (set_moving s).timers.length from
      (set_moving_length s).symm]
    exact fireTimer_fresh (set_moving s)

/-- Concrete run of `setMoving_twice_single_timer` on a fresh device. -/
theorem setMoving_twice_single_timer_witness :
    timerInvB sys0 = true ∧
    liveTimers (set_moving (set_moving sys0)) = [⟨10, true⟩] ∧
    (fireTimer (set_moving (set_moving sys0)) 1).cfg.status = some "IDLE" :=
  ⟨by decide, (setMoving_twice_single_timer sys0 (by decide)).1,
    (setMoving_twice_single_timer sys0 (by decide)).2.2.2.2.1⟩

/-- Claim C5: the `Stop` request branch calls `set_idle`, which returns the
document unchanged, sets the motion status to IDLE immediately, drops the
tracked timer handle, and (under the invariant) leaves no live timer, so
no stale timer can fire later. -/
theorem stop_sets_idle_and_cancels (s : Sys) (root : XTree) (h : timerInvB s = true) :
    modify_onvif_request s "Stop" root = .ok (root, set_idle s) ∧
    (set_idle s).cfg.status = some "IDLE" ∧
    (set_idle s).cfg.move_timer = none ∧
    liveTimers (set_idle s) = [] :=
  ⟨rfl, rfl, rfl, set_idle_liveTimers s h⟩

/-- Concrete run of `stop_sets_idle_and_cancels` on a device with one
armed timer. -/
theorem stop_sets_idle_and_cancels_witness :
    timerInvB (set_moving sys0) = true ∧
    modify_onvif_request (set_moving sys0) "Stop" (.elem "Stop" [] none []) =
      .ok (.elem "Stop" [] none [], set_idle (set_moving sys0)) ∧
    liveTimers (set_idle (set_moving sys0)) = [] :=
  ⟨by decide,
    (stop_sets_idle_and_cancels (set_moving sys0) (.elem "Stop" [] none []) (by decide)).1,
    (stop_sets_idle_and_cancels (set_moving sys0) (.elem "Stop" [] none []) (by decide)).2.2.2⟩

/-- Claim C10: a device record whose configuration has no `move_timeout`
key gets the default of 10 seconds: `set_moving` arms a live timer with
delay 10, sets status MOVING, and firing that timer yields IDLE. -/
theorem setMoving_default_timeout_ten (s : Sys) (h : s.cfg.move_timeout = none) :
    (set_moving s).timers.getLast? = some ⟨10, true⟩ ∧
    (set_moving s).cfg.status = some "MOVING" ∧
    (fireTimer (set_moving s) s.timers.length).cfg.status = some "IDLE" := by
  refine ⟨?_, rfl, fireTimer_fresh s⟩
  show ((cancelTracked s.cfg.move_timer s.timers) ++
      [(⟨s.cfg.move_timeout.getD 10, true⟩ : TimerEntry)]).getLast? = some ⟨10, true⟩
  rw [List.getLast?_concat, h]
  rfl

/-- Concrete run of `setMoving_default_timeout_ten`. -/
theorem setMoving_default_timeout_ten_witness :
    sys0.cfg.move_timeout = none ∧
    (set_moving sys0).timers.getLast? = some ⟨10, true⟩ ∧
    (fireTimer (set_moving sys0) 0).cfg.status = some "IDLE" :=
  ⟨rfl, (setMoving_default_timeout_ten sys0 rfl).1,
    (setMoving_default_timeout_ten sys0 rfl).2.2⟩

/-- Claim C2: a RelativeMove request whose PanTilt element is present with
both axis attributes parseable as numbers has its x attribute rewritten to
the formatted `clamp(x*p, -1, 1)` and its y attribute to the formatted
`clamp(y*t, -1, 1)` (hard saturation, never rejection), for any
multipliers p, t in [-1, 1] taken from the device record, and the device
is put into MOVING via `set_moving`. -/
theorem relativeMove_scales_clamps_and_sets_moving
    (s : Sys) (root : XTree) (lp : List Nat) (pt : XTree) (sx sy : String)
    (qx qy p t : Dec)
    (hxm : s.cfg.x_multiplier = some p) (hym : s.cfg.y_multiplier = some t)
    (_hp1 : Dec.ble Dec.negOne p = true) (_hp2 : Dec.ble p Dec.one = true)
    (_ht1 : Dec.ble Dec.negOne t = true) (_ht2 : Dec.ble t Dec.one = true)
    (hfind : findE (isTag panTiltTag) root = some (lp, pt))
    (hx : getA pt.attrs "x" = some sx) (hy : getA pt.attrs "y" = some sy)
    (hqx : pyFloat? sx = some qx) (hqy : pyFloat? sy = some qy) :
    modify_onvif_request s "RelativeMove" root =
      .ok (updateAt (fun e => .elem e.tag
          (setA (setA e.attrs "x" (fmtG (clampQ (qx.mul p)))) "y" (fmtG (clampQ (qy.mul t))))
          e.text e.children) root lp, set_moving s) ∧
    (∃ pt2, getAt (updateAt (fun e => .elem e.tag
          (setA (setA e.attrs "x" (fmtG (clampQ (qx.mul p)))) "y" (fmtG (clampQ (qy.mul t))))
          e.text e.children) root lp) lp = some pt2 ∧
        getA pt2.attrs "x" = some (fmtG (clampQ (qx.mul p))) ∧
        getA pt2.attrs "y" = some (fmtG (clampQ (qy.mul t)))) ∧
    (set_moving s).cfg.status = some "MOVING" := by
  have hbranch : modify_onvif_request s "RelativeMove" root = relMoveBranch s root := rfl
  refine ⟨?_, ?_, rfl⟩
  · rw [hbranch]
    simp only [relMoveBranch, hfind, hx, hy, hqx, hqy, hxm, hym, Option.getD_some]
  · have hga : getAt root lp = some pt := (findE_some _ root lp pt hfind).1
    refine ⟨.elem pt.tag
        (setA (setA pt.attrs "x" (fmtG (clampQ (qx.mul p)))) "y" (fmtG (clampQ (qy.mul t))))
        pt.text pt.children, ?_, ?_, ?_⟩
    · rw [getAt_updateAt, hga]
      rfl
    · show getA (setA (setA pt.attrs "x" (fmtG (clampQ (qx.mul p)))) "y"
        (fmtG (clampQ (qy.mul t)))) "x" = some (fmtG (clampQ (qx.mul p)))
      rw [getA_setA_other _ _ _ _ (by decide), getA_setA_same]
    · show getA (setA (setA pt.attrs "x" (fmtG (clampQ (qx.mul p)))) "y"
        (fmtG (clampQ (qy.mul t)))) "y" = some (fmtG (clampQ (qy.mul t)))
      rw [getA_setA_same]

/-- Concrete run of `relativeMove_scales_clamps_and_sets_moving`:
multipliers 1/2 and -1, deltas 0.8 and 0.5, giving attributes "0.4" and
"-0.5". -/
theorem relativeMove_scales_clamps_witness :
    modify_onvif_request sysC2 "RelativeMove" rootC2 =
      .ok (updateAt (fun e => .elem e.tag
          (setA (setA e.attrs "x" (fmtG (clampQ (Dec.mul ⟨8, 1⟩ ⟨5, 1⟩)))) "y"
            (fmtG (clampQ (Dec.mul ⟨5, 1⟩ ⟨-1, 0⟩)))) e.text e.children) rootC2 [0, 0, 0, 0],
        set_moving sysC2) ∧
    fmtG (clampQ (Dec.mul ⟨8, 1⟩ ⟨5, 1⟩)) = "0.4" ∧
    fmtG (clampQ (Dec.mul ⟨5, 1⟩ ⟨-1, 0⟩)) = "-0.5" ∧
    (set_moving sysC2).cfg.status = some "MOVING" := by
  have h := relativeMove_scales_clamps_and_sets_moving sysC2 rootC2 [0, 0, 0, 0] ptC2
      "0.8" "0.5" ⟨8, 1⟩ ⟨5, 1⟩ ⟨5, 1⟩ ⟨-1, 0⟩ rfl rfl (by decide) (by decide)
      (by decide) (by decide) (by decide) (by decide) (by decide) (by decide) (by decide)
  exact ⟨h.1, by decide, by decide, h.2.2⟩

/-- Claim C3 (amended): a RelativeMove request whose PanTilt element is
absent, or either of whose axis attributes is missing, passes through
unmodified with no state transition and no exception.  (An axis attribute
that is present but unparseable instead raises ValueError; see the
counterexample.) -/
theorem relativeMove_missing_input_passthrough (s : Sys) (root : XTree) :
    (findE (isTag panTiltTag) root = none →
      modify_onvif_request s "RelativeMove" root = .ok (root, s)) ∧
    (∀ lp pt, findE (isTag panTiltTag) root = some (lp, pt) →
      getA pt.attrs "x" = none ∨ getA pt.attrs "y" = none →
      modify_onvif_request s "RelativeMove" root = .ok (root, s)) := by
  have hbranch : modify_onvif_request s "RelativeMove" root = relMoveBranch s root := rfl
  constructor
  · intro hnone
    rw [hbranch]
    simp only [relMoveBranch, hnone]
  · intro lp pt hfind hmiss
    rw [hbranch]
    cases hmiss with
    | inl hx =>
        cases hy : getA pt.attrs "y" with
        | none => simp only [relMoveBranch, hfind, hx, hy]
        | some sy => simp only [relMoveBranch, hfind, hx, hy]
    | inr hy =>
        cases hx : getA pt.attrs "x" with
        | none => simp only [relMoveBranch, hfind, hx, hy]
        | some sx => simp only [relMoveBranch, hfind, hx, hy]

/-- Counterexample to claim C3 as stated: a PanTilt element whose x
attribute is present but not parseable as a number makes the transform
raise `ValueError` (the bare `float(x_orig)` call), rather than forwarding
the document unmodified. -/
theorem relativeMove_unparseable_axis_raises :
    modify_onvif_request sys0 "RelativeMove" rootC3 =
      .error (.valueError "could not convert string to float: abc") := by decide

/-- Concrete run of `relativeMove_missing_input_passthrough`: a PanTilt
element carrying only a y attribute is forwarded untouched. -/
theorem relativeMove_missing_input_passthrough_witness :
    modify_onvif_request sys0 "RelativeMove"
        (.elem "Envelope" [] none [.elem panTiltTag [("y", "0.5")] none []]) =
      .ok (.elem "Envelope" [] none [.elem panTiltTag [("y", "0.5")] none []], sys0) :=
  (relativeMove_missing_input_passthrough sys0
      (.elem "Envelope" [] none [.elem panTiltTag [("y", "0.5")] none []])).2
    [0] (.elem panTiltTag [("y", "0.5")] none []) (by decide) (Or.inl (by decide))

/-- Claim C9: a RelativeMove response whose first SOAP fault element is a
direct child of the body has that fault removed and a synthetic
`RelativeMoveResponse` success element appended in its place; a
RelativeMove response with no fault element passes through unchanged. -/
theorem relativeMove_response_fault_suppressed
    (s : Sys) (root : XTree) (lb : List Nat) (i : Nat) (body flt : XTree)
    (hb : findE (isTag bodyTag) root = some (lb, body))
    (hf : findE (isTag faultTag) root = some (lb ++ [i], flt)) :
    modify_onvif_response s "RelativeMove" root =
      .ok (tostr (updateAt (fun b => .elem b.tag b.attrs b.text
          (eraseAt b.children i ++ [relMoveRespElem])) root lb), s) ∧
    body.children.get? i = some flt ∧
    (∀ r2 : XTree, findE (isTag faultTag) r2 = none →
      modify_onvif_response s "RelativeMove" r2 = .ok (tostr r2, s)) := by
  have hdisp : ∀ r : XTree, modify_onvif_response s "RelativeMove" r =
      relMoveRespBranch s r := fun _ => rfl
  refine ⟨?_, ?_, ?_⟩
  · rw [hdisp root]
    have hpre : lb.isPrefixOf (lb ++ [i]) = true := by
      rw [List.isPrefixOf_iff_prefix]
      exact ⟨[i], rfl⟩
    simp only [relMoveRespBranch, hf, hb, hpre, if_true, List.drop_left]
  · have h0 : getAt root (lb ++ [i]) = some flt := (findE_some _ root _ flt hf).1
    have h2 : getAt root lb = some body := (findE_some _ root lb body hb).1
    have h1 : getAt body [i] = some flt := by
      rw [getAt_append, h2] at h0
      exact h0
    cases body with
    | elem tg a tx cs =>
        rw [getAt_cons] at h1
        show cs.get? i = some flt
        unfold getAtL at h1
        cases hg : cs.get? i with
        | none => rw [hg] at h1; simp at h1
        | some c =>
            rw [hg] at h1
            simpa [getAt] using h1
  · intro r2 h2
    rw [hdisp r2]
    simp only [relMoveRespBranch, h2]

/-- Concrete run of `relativeMove_response_fault_suppressed` on `rootC9`:
the fault child is replaced by a synthetic success element. -/
theorem relativeMove_response_fault_suppressed_witness :
    modify_onvif_response sys0 "RelativeMove" rootC9 =
      .ok (tostr (.elem "Envelope" [] none
        [ .elem bodyTag [] none [ relMoveRespElem ] ]), sys0) ∧
    modify_onvif_response sys0 "RelativeMove" (.elem "Envelope" [] none []) =
      .ok (tostr (.elem "Envelope" [] none []), sys0) := by
  have h := relativeMove_response_fault_suppressed sys0 rootC9 [0] 0
      (.elem bodyTag [] none [ faultC9 ]) faultC9 (by decide) (by decide)
  refine ⟨?_, h.2.2 (.elem "Envelope" [] none []) (by decide)⟩
  rw [h.1]
  decide

/-- Claim C7 (amended): when the coordinate-space list contains at least
one relative pan-tilt translation space entry and no field-of-view entry
(detected by URI substring), the transform synthesizes the FOV entry with
both ranges [-1, 1] and inserts it immediately after the last existing
entry of that space type; when no entry of that space type exists the
response is returned unchanged — nothing is synthesized or appended (the
source returns early before reaching its append branch). -/
theorem getConfOpts_inserts_fov_after_last
    (s : Sys) (root : XTree) (ls : List Nat) (spaces : XTree)
    (hsp : findE (isTag spacesTag) root = some (ls, spaces)) :
    (∀ relpt k, spaces.children.find? (isTag relPTTag) = some relpt →
      fovScan (spaces.children.filter (isTag relPTTag)) = .ok false →
      lastIdxP (isTag relPTTag) spaces.children = some k →
      modify_onvif_response s "GetConfigurationOptions" root =
        .ok (tostrDecl (updateAt (fun e => .elem e.tag e.attrs e.text
            (insertAt spaces.children (k + 1) fovSpace)) root ls), s)) ∧
    (spaces.children.find? (isTag relPTTag) = none →
      modify_onvif_response s "GetConfigurationOptions" root = .ok (tostr root, s)) := by
  have hdisp : modify_onvif_response s "GetConfigurationOptions" root =
      getConfOptsBranch s root := rfl
  constructor
  · intro relpt k h1 h2 h3
    rw [hdisp]
    simp only [getConfOptsBranch, hsp, h1, h2, h3]
  · intro h1
    rw [hdisp]
    simp only [getConfOptsBranch, hsp, h1]

/-- Counterexample to claim C7 as stated: a Spaces list with no relative
pan-tilt translation space entry (hence, in particular, no FOV entry) is
returned unchanged — the claimed "append if no entry of that space type
exists" never happens, because the source returns early when the generic
entry is missing. -/
theorem getConfOpts_no_relpt_no_synthesis :
    modify_onvif_response sys0 "GetConfigurationOptions" rootC7 =
      .ok (tostr rootC7, sys0) ∧
    findE (isTag relPTTag) rootC7 = none := by decide

/-- Concrete run of `getConfOpts_inserts_fov_after_last` on `rootC7b`: the
FOV space is inserted right after the generic space. -/
theorem getConfOpts_inserts_fov_witness :
    modify_onvif_response sys0 "GetConfigurationOptions" rootC7b =
      .ok (tostrDecl docC8, sys0) := by
  rw [(getConfOpts_inserts_fov_after_last sys0 rootC7b [0]
      (.elem spacesTag [] none [ genSpaceC7 ]) (by decide)).1 genSpaceC7 0
      (by decide) (by decide) (by decide)]
  decide

/-- When the space list already holds an entry whose URI mentions the FOV
space, the GetConfigurationOptions branch skips and returns the document
unchanged. -/
theorem getConfOpts_skips_when_fov_present (s : Sys) (d : XTree) (ls : List Nat)
    (sp2 relpt : XTree) (hsp2 : findE (isTag spacesTag) d = some (ls, sp2))
    (hfind2 : sp2.children.find? (isTag relPTTag) = some relpt)
    (hscan2 : fovScan (sp2.children.filter (isTag relPTTag)) = .ok true) :
    getConfOptsBranch s d = .ok (tostr d, s) := by
  simp only [getConfOptsBranch, hsp2, hfind2, hscan2]

/-- Claim C8 (amended): whenever the GetConfigurationOptions transform
succeeds, re-applying it to the produced document leaves the document
tree unchanged — a second application detects the already-synthesized FOV
entry by URI match and skips insertion, so no duplicate entries arise.
(The full serialized outputs still differ in representation: the insert
path returns a declaration-prefixed string while the skip path returns
plain bytes; see the counterexample.) -/
theorem getConfOpts_tree_idempotent (s s' : Sys) (root : XTree) (out : Serialized)
    (h : modify_onvif_response s "GetConfigurationOptions" root = .ok (out, s')) :
    ∃ out2, modify_onvif_response s' "GetConfigurationOptions" out.doc = .ok (out2, s') ∧
      out2.doc = out.doc := by
  have hdisp : ∀ (u : Sys) (r : XTree),
      modify_onvif_response u "GetConfigurationOptions" r = getConfOptsBranch u r :=
    fun _ _ => rfl
  rw [hdisp] at h
  rw [hdisp]
  cases hsp : findE (isTag spacesTag) root with
  | none =>
      simp only [getConfOptsBranch, hsp, Except.ok.injEq, Prod.mk.injEq] at h
      obtain ⟨hout, hs⟩ := h
      subst hout; subst hs
      refine ⟨tostr root, ?_, rfl⟩
      show getConfOptsBranch s root = .ok (tostr root, s)
      simp only [getConfOptsBranch, hsp]
  | some r0 =>
      obtain ⟨ls, spaces⟩ := r0
      cases h1 : spaces.children.find? (isTag relPTTag) with
      | none =>
          simp only [getConfOptsBranch, hsp, h1, Except.ok.injEq, Prod.mk.injEq] at h
          obtain ⟨hout, hs⟩ := h
          subst hout; subst hs
          refine ⟨tostr root, ?_, rfl⟩
          show getConfOptsBranch s root = .ok (tostr root, s)
          simp only [getConfOptsBranch, hsp, h1]
      | some relpt =>
          cases h2 : fovScan (spaces.children.filter (isTag relPTTag)) with
          | error e =>
              simp only [getConfOptsBranch, hsp, h1, h2] at h
              exact Except.noConfusion h
          | ok b =>
              cases b with
              | true =>
                  simp only [getConfOptsBranch, hsp, h1, h2, Except.ok.injEq,
                    Prod.mk.injEq] at h
                  obtain ⟨hout, hs⟩ := h
                  subst hout; subst hs
                  refine ⟨tostr root, ?_, rfl⟩
                  show getConfOptsBranch s root = .ok (tostr root, s)
                  exact getConfOpts_skips_when_fov_present s root ls spaces relpt hsp h1 h2
              | false =>
                  have hsp_p : isTag spacesTag spaces = true :=
                    (findE_some _ root ls spaces hsp).2
                  cases h3 : lastIdxP (isTag relPTTag) spaces.children with
                  | some k =>
                      simp only [getConfOptsBranch, hsp, h1, h2, h3, Except.ok.injEq,
                        Prod.mk.injEq] at h
                      obtain ⟨hout, hs⟩ := h
                      subst hout; subst hs
                      refine ⟨tostr (updateAt (fun e => .elem e.tag e.attrs e.text
                          (insertAt spaces.children (k + 1) fovSpace)) root ls), ?_, rfl⟩
                      have hftag : isTag spacesTag (.elem spaces.tag spaces.attrs spaces.text
                          (insertAt spaces.children (k + 1) fovSpace)) = true := by
                        simpa [isTag, XTree.tag] using hsp_p
                      have hsp2 := findE_updateAt (isTag spacesTag)
                        (fun e => .elem e.tag e.attrs e.text
                          (insertAt spaces.children (k + 1) fovSpace))
                        (isTag_of_tag_eq spacesTag) root ls spaces hsp hftag
                      have hfilter : (insertAt spaces.children (k + 1) fovSpace).filter
                          (isTag relPTTag) =
                          spaces.children.filter (isTag relPTTag) ++ [fovSpace] :=
                        filter_insertAt_last _ _ k fovSpace h3 (by decide)
                      have hhead : (spaces.children.filter (isTag relPTTag) ++
                          [fovSpace]).head? = some relpt := by
                        cases hflt : spaces.children.filter (isTag relPTTag) with
                        | nil =>
                            rw [find?_eq_head_filter, hflt] at h1
                            simp at h1
                        | cons a rest =>
                            rw [find?_eq_head_filter, hflt] at h1
                            simpa using h1
                      have hfind2 : (insertAt spaces.children (k + 1) fovSpace).find?
                          (isTag relPTTag) = some relpt := by
                        rw [find?_eq_head_filter, hfilter]
                        exact hhead
                      have hscan2 : fovScan ((insertAt spaces.children (k + 1)
                          fovSpace).filter (isTag relPTTag)) = .ok true := by
                        rw [hfilter, fovScan_append _ _ h2]
                        decide
                      exact getConfOpts_skips_when_fov_present s
                        (updateAt (fun e => .elem e.tag e.attrs e.text
                          (insertAt spaces.children (k + 1) fovSpace)) root ls) ls
                        (.elem spaces.tag spaces.attrs spaces.text
                          (insertAt spaces.children (k + 1) fovSpace)) relpt
                        hsp2 hfind2 hscan2
                  | none =>
                      simp only [getConfOptsBranch, hsp, h1, h2, h3, Except.ok.injEq,
                        Prod.mk.injEq] at h
                      obtain ⟨hout, hs⟩ := h
                      subst hout; subst hs
                      refine ⟨tostr (updateAt (fun e => .elem e.tag e.attrs e.text
                          (spaces.children ++ [fovSpace])) root ls), ?_, rfl⟩
                      have hftag : isTag spacesTag (.elem spaces.tag spaces.attrs spaces.text
                          (spaces.children ++ [fovSpace])) = true := by
                        simpa [isTag, XTree.tag] using hsp_p
                      have hsp2 := findE_updateAt (isTag spacesTag)
                        (fun e => .elem e.tag e.attrs e.text (spaces.children ++ [fovSpace]))
                        (isTag_of_tag_eq spacesTag) root ls spaces hsp hftag
                      have hfilter : (spaces.children ++ [fovSpace]).filter
                          (isTag relPTTag) =
                          spaces.children.filter (isTag relPTTag) ++ [fovSpace] := by
                        rw [List.filter_append]
                        rw [show List.filter (isTag relPTTag) [fovSpace] = [fovSpace] from
                          by decide]
                      have hhead : (spaces.children.filter (isTag relPTTag) ++
                          [fovSpace]).head? = some relpt := by
                        cases hflt : spaces.children.filter (isTag relPTTag) with
                        | nil =>
                            rw [find?_eq_head_filter, hflt] at h1
                            simp at h1
                        | cons a rest =>
                            rw [find?_eq_head_filter, hflt] at h1
                            simpa using h1
                      have hfind2 : (spaces.children ++ [fovSpace]).find?
                          (isTag relPTTag) = some relpt := by
                        rw [find?_eq_head_filter, hfilter]
                        exact hhead
                      have hscan2 : fovScan ((spaces.children ++ [fovSpace]).filter
                          (isTag relPTTag)) = .ok true := by
                        rw [hfilter, fovScan_append _ _ h2]
                        decide
                      exact getConfOpts_skips_when_fov_present s
                        (updateAt (fun e => .elem e.tag e.attrs e.text
                          (spaces.children ++ [fovSpace])) root ls) ls
                        (.elem spaces.tag spaces.attrs spaces.text
                          (spaces.children ++ [fovSpace])) relpt hsp2 hfind2 hscan2

/-- Counterexample to claim C8 as stated: applying the transform twice
does not yield the same output as applying it once.  The first
application (which inserts the FOV space) serializes with
`encoding='utf-8', xml_declaration=True` and decodes to a `str`, while
the second application takes the skip path and returns plain
`etree.tostring` bytes without a declaration — same tree, different
serialized output. -/
theorem getConfOpts_second_application_output_differs :
    modify_onvif_response sys0 "GetConfigurationOptions" rootC7b =
      .ok (tostrDecl docC8, sys0) ∧
    modify_onvif_response sys0 "GetConfigurationOptions" docC8 =
      .ok (tostr docC8, sys0) ∧
    tostr docC8 ≠ tostrDecl docC8 := by decide

/-- Concrete run of `getConfOpts_tree_idempotent` on `rootC7b`. -/
theorem getConfOpts_tree_idempotent_witness :
    ∃ out2, modify_onvif_response sys0 "GetConfigurationOptions"
        (tostrDecl docC8).doc = .ok (out2, sys0) ∧ out2.doc = (tostrDecl docC8).doc :=
  getConfOpts_tree_idempotent sys0 sys0 rootC7b (tostrDecl docC8) (by decide)

/-- Claim C6: on a GetStatus response carrying a move-status text and a
position, when a previously observed (x, y) position exists and the
reported position equals it exactly (string equality on both attributes,
no numeric tolerance), the transform forces the response's move-status
text to IDLE and calls `set_idle` (status IDLE, timer cancelled) even
without a Stop; when the reported position differs, the device's motion
status and timers are left unchanged (only the observed position is
persisted, and the response's move-status text is overridden with the
proxy's current status). -/
theorem getStatus_position_stability
    (s : Sys) (root : XTree) (lptz lms : List Nat) (ptz ms : XTree) (mtxt lx ly : String)
    (lpos : List Nat) (pos : XTree)
    (hinv : timerInvB s = true)
    (hptz : findE (isTag ptzStatusTag) root = some (lptz, ptz))
    (hms : findDC (isTag moveStatusTag) (isTag panTiltTag) ptz = some (lms, ms))
    (htext : ms.text = some mtxt)
    (hlx : s.cfg.status_x = some lx) (hly : s.cfg.status_y = some ly)
    (hpos : findDC (isTag positionTag) (isTag panTiltTag)
        (updateAt (fun e => .elem e.tag e.attrs (some (s.cfg.status.getD "IDLE")) e.children)
          ptz lms) = some (lpos, pos)) :
    ((getA pos.attrs "x" = some lx ∧ getA pos.attrs "y" = some ly) →
      modify_onvif_response s "GetStatus" root =
        .ok (tostr (updateAt (fun _ =>
            updateAt (fun e => .elem e.tag e.attrs (some "IDLE") e.children)
              (updateAt (fun e => .elem e.tag e.attrs (some (s.cfg.status.getD "IDLE"))
                e.children) ptz lms) lms) root lptz),
          ⟨{ (set_idle s).cfg with status_x := getA pos.attrs "x", status_y := getA pos.attrs "y" }, (set_idle s).timers⟩) ∧
      (∃ ms2, getAt (updateAt (fun _ =>
            updateAt (fun e => .elem e.tag e.attrs (some "IDLE") e.children)
              (updateAt (fun e => .elem e.tag e.attrs (some (s.cfg.status.getD "IDLE"))
                e.children) ptz lms) lms) root lptz) (lptz ++ lms) = some ms2 ∧
          ms2.text = some "IDLE") ∧
      (set_idle s).cfg.status = some "IDLE" ∧
      liveTimers (set_idle s) = []) ∧
    (¬(getA pos.attrs "x" = some lx ∧ getA pos.attrs "y" = some ly) →
      modify_onvif_response s "GetStatus" root =
        .ok (tostr (updateAt (fun _ =>
            updateAt (fun e => .elem e.tag e.attrs (some (s.cfg.status.getD "IDLE"))
              e.children) ptz lms) root lptz),
          ⟨{ s.cfg with status_x := getA pos.attrs "x", status_y := getA pos.attrs "y" },
            s.timers⟩)) := by
  have hdisp : modify_onvif_response s "GetStatus" root = getStatusBranch s root := rfl
  constructor
  · intro hxy
    have heq : (getA pos.attrs "x" == some lx && getA pos.attrs "y" == some ly) = true := by
      rw [hxy.1, hxy.2]
      simp
    refine ⟨?_, ?_, rfl, set_idle_liveTimers s hinv⟩
    · rw [hdisp]
      simp only [getStatusBranch, hptz, hms, htext, hpos, hlx, hly, heq, if_true]
    · have hgr : getAt root lptz = some ptz := (findE_some _ root lptz ptz hptz).1
      have hgm : getAt ptz lms = some ms := (findDC_some _ _ ptz lms ms hms).1
      refine ⟨.elem ms.tag ms.attrs (some "IDLE") ms.children, ?_, rfl⟩
      rw [getAt_append, getAt_updateAt, hgr]
      show getAt (updateAt (fun e => .elem e.tag e.attrs (some "IDLE") e.children)
          (updateAt (fun e => .elem e.tag e.attrs (some (s.cfg.status.getD "IDLE"))
            e.children) ptz lms) lms) lms = _
      rw [getAt_updateAt, getAt_updateAt, hgm]
      rfl
  · intro hne
    have heq : (getA pos.attrs "x" == some lx && getA pos.attrs "y" == some ly) = false := by
      cases hb : (getA pos.attrs "x" == some lx && getA pos.attrs "y" == some ly) with
      | false => rfl
      | true =>
          rw [Bool.and_eq_true, beq_iff_eq, beq_iff_eq] at hb
          exact absurd hb hne
    rw [hdisp]
    simp only [getStatusBranch, hptz, hms, htext, hpos, hlx, hly, heq,
      Bool.false_eq_true, if_false]

/-- Concrete run of `getStatus_position_stability`: two polls reporting
the identical position force IDLE and cancel the armed timer. -/
theorem getStatus_position_stability_witness :
    (set_idle sC6).cfg.status = some "IDLE" ∧ liveTimers (set_idle sC6) = [] := by
  have h := (getStatus_position_stability sC6 rootC6 [0, 0, 0] [1, 0] ptzC6 msPTC6
      "MOVING" "0.30" "0.40" [0, 0] posPTC6 (by decide) (by decide) (by decide)
      (by decide) rfl rfl (by decide)).1 ⟨rfl, rfl⟩
  exact ⟨h.2.2.1, h.2.2.2⟩
